import Mathlib

/-!
# Verification of the instant-film effect pipeline

A shallow embedding of `src/instantfilm_effect.py` (an "instax mini" style
photo filter).  Images are modelled as a pair of pixel dimensions together
with a pixel-lookup function into 8-bit RGB triples; the floating-point
arithmetic of the Python code is modelled by exact rational arithmetic.
Calls into the Pillow / numpy libraries that are external to the repository
(Lanczos resampling, Gaussian blur, the square root used by the vignette)
are taken as function parameters, while the library operations with simple
documented pixel-level semantics (`Image.new`, `crop`, `paste`,
`ImageChops.screen`, `Image.blend`, `ImageOps.expand`) are modelled
directly.
-/

/-- An RGB pixel; each channel is an 8-bit value stored as a natural
number. -/
structure Pixel where
  r : Nat
  g : Nat
  b : Nat
deriving DecidableEq, Repr

/-- A raster image: pixel dimensions plus a pixel lookup function
(row-major `pixel x y` with `x` the column and `y` the row, as in
numpy's `np_image[y, x]`). -/
structure Image where
  width : Nat
  height : Nat
  pixel : Nat → Nat → Pixel

/-- All channels of all in-bounds pixels are 8-bit values. -/
def Image.Valid (img : Image) : Prop :=
  ∀ y < img.height, ∀ x < img.width,
    (img.pixel x y).r ≤ 255 ∧ (img.pixel x y).g ≤ 255 ∧ (img.pixel x y).b ≤ 255

instance (img : Image) : Decidable img.Valid := by
  unfold Image.Valid; infer_instance

/-- Pixel-for-pixel equality: same dimensions and the same pixel at every
in-bounds coordinate. -/
def Image.EqOn (a b : Image) : Prop :=
  a.width = b.width ∧ a.height = b.height ∧
    ∀ y < a.height, ∀ x < a.width, a.pixel x y = b.pixel x y

instance (a b : Image) : Decidable (a.EqOn b) := by
  unfold Image.EqOn; infer_instance

/-- `PIL.Image.new("RGB", (w, h), color)`: a constant-color canvas. -/
def Image.new (w h : Nat) (c : Pixel) : Image :=
  ⟨w, h, fun _ _ => c⟩

/-- `PIL.Image.crop((left, top, right, bottom))`: the axis-aligned
sub-image; its size is `(right - left, bottom - top)`. -/
def Image.crop (img : Image) (left top right bottom : Nat) : Image :=
  ⟨right - left, bottom - top, fun x y => img.pixel (x + left) (y + top)⟩

/-- `PIL.Image.paste(im, (px, py))`: overwrite the box of `im`'s size at
offset `(px, py)`; the base image keeps its dimensions (PIL clips the
pasted region at the base boundary, which is invisible to in-bounds
lookups). -/
def Image.paste (base im : Image) (px py : Nat) : Image :=
  ⟨base.width, base.height, fun x y =>
    if px ≤ x ∧ x < px + im.width ∧ py ≤ y ∧ y < py + im.height then
      im.pixel (x - px) (y - py)
    else base.pixel x y⟩

/-! ## Frame construction (`create_instax_frame`) -/

def inner_width_mm : Nat := 46
def inner_height_mm : Nat := 62
def frame_width_mm : Nat := 54
def frame_height_mm : Nat := 86

/-- How `create_instax_frame` can fail.  `invalidImage` is the classified
error kind named by the spec; the code contains no such classification, so
the embedding never produces it — it is present only so that statements
about it can be made.  `zeroDivision` models Python's uncaught
`ZeroDivisionError` raised at `img_ratio = img_width / img_height` when
the input height is zero. -/
inductive FrameError where
  | invalidImage
  | zeroDivision
deriving DecidableEq, Repr

/-- The centered crop box `(left, top, right, bottom)` computed by
`create_instax_frame` lines 34-50: compare the image's aspect ratio with
the target 46/62 ratio, truncate the fitted dimension to an integer
(`int(...)`), and center with floor division (`// 2`). -/
def instax_crop_box (image : Image) : Nat × Nat × Nat × Nat :=
  let targetRatio : ℚ := (inner_width_mm : ℚ) / (inner_height_mm : ℚ)
  let imgRatio : ℚ := (image.width : ℚ) / (image.height : ℚ)
  let nwnh : Nat × Nat :=
    if imgRatio > targetRatio then
      ((⌊(image.height : ℚ) * targetRatio⌋).toNat, image.height)
    else
      (image.width, (⌊(image.width : ℚ) / targetRatio⌋).toNat)
  let left := (image.width - nwnh.1) / 2
  let top := (image.height - nwnh.2) / 2
  (left, top, left + nwnh.1, top + nwnh.2)

/-- `create_instax_frame(image, scale)`: center-crop the input to the
46:62 aspect ratio, resize the crop to `(46*scale, 62*scale)` via the
external resampler `resize` (PIL's `Image.resize(..., Image.LANCZOS)`,
taken as a parameter), and paste it onto a white `(54*scale, 86*scale)`
canvas at `paste_x = (frame_width_px - inner_width_px) // 2`,
`paste_y = 70`.  A zero input height raises `ZeroDivisionError` at the
`img_ratio` computation; there is no other failure path (Pillow's resize
accepts an empty source without raising). -/
def create_instax_frame (resize : Image → Nat → Nat → Image)
    (image : Image) (scale : Nat) : Except FrameError Image :=
  let inner_width_px := inner_width_mm * scale
  let inner_height_px := inner_height_mm * scale
  let frame_width_px := frame_width_mm * scale
  let frame_height_px := frame_height_mm * scale
  if image.height = 0 then .error .zeroDivision
  else
    let box := instax_crop_box image
    let cropped_img := image.crop box.1 box.2.1 box.2.2.1 box.2.2.2
    let resized_cropped := resize cropped_img inner_width_px inner_height_px
    let framed_image := Image.new frame_width_px frame_height_px ⟨255, 255, 255⟩
    let paste_x := (frame_width_px - inner_width_px) / 2
    let paste_y := 70
    .ok (framed_image.paste resized_cropped paste_x paste_y)

/-! ## Auto-estimation heuristics -/

/-- A pixel's brightness as used by both estimators: the mean of the three
channels (`np.mean(np_image, axis=2)`). -/
def Pixel.brightness (p : Pixel) : ℚ :=
  ((p.r : ℚ) + (p.g : ℚ) + (p.b : ℚ)) / 3

/-- All pixels of an image in row-major order (the flattened numpy
array). -/
def Image.pixelList (img : Image) : List Pixel :=
  (List.range img.height).flatMap fun y =>
    (List.range img.width).map fun x => img.pixel x y

/-- `estimate_leak_intensity(image)`: bucket the global mean brightness
into one of three fixed intensities.  For an empty image `np.mean` yields
NaN and both NaN comparisons are false, so the final bucket is taken. -/
def estimate_leak_intensity (image : Image) : ℚ :=
  let ps := image.pixelList
  if ps.length = 0 then 3 / 10
  else
    let avg_brightness := (ps.map Pixel.brightness).sum / (ps.length : ℚ)
    if avg_brightness < 100 then 6 / 10
    else if avg_brightness < 180 then 5 / 10
    else 3 / 10

/-- `estimate_leak_light_color(image, brightness_threshold=200)`: average
the pixels whose brightness exceeds the threshold, truncating each channel
mean to an integer (`astype(int)`), or white if no pixel qualifies. -/
def estimate_leak_light_color (image : Image)
    (brightness_threshold : ℚ := 200) : Pixel :=
  let bright_pixels :=
    image.pixelList.filter fun p => decide (brightness_threshold < p.brightness)
  if bright_pixels.length = 0 then ⟨255, 255, 255⟩
  else
    let n : ℚ := (bright_pixels.length : ℚ)
    ⟨(⌊(bright_pixels.map fun p => (p.r : ℚ)).sum / n⌋).toNat,
     (⌊(bright_pixels.map fun p => (p.g : ℚ)).sum / n⌋).toNat,
     (⌊(bright_pixels.map fun p => (p.b : ℚ)).sum / n⌋).toNat⟩

/-! ## Light leak effect (`add_light_leak_effect`) -/

/-- The ellipse bounding box per leak position (lines 153-162 of the
source); any unrecognized position falls back to the `upper_right` box.
The float products `int(width * 0.6)` and `int(width * 0.4)` are modelled
exactly as `6 * width / 10` and `4 * width / 10` with floor division (the
float rounding can differ by one pixel on some widths; no claim depends on
the exact box). -/
def ellipse_box (leak_position : String) (width height : Nat) : ℤ × ℤ × ℤ × ℤ :=
  if leak_position = "upper_right" then
    ((6 * width : ℤ) / 10, 0, (width : ℤ), (height : ℤ) / 2)
  else if leak_position = "upper_left" then
    (0, 0, (4 * width : ℤ) / 10, (height : ℤ) / 2)
  else if leak_position = "bottom_right" then
    ((6 * width : ℤ) / 10, (height : ℤ) / 2, (width : ℤ), (height : ℤ))
  else if leak_position = "bottom_left" then
    (0, (height : ℤ) / 2, (4 * width : ℤ) / 10, (height : ℤ))
  else
    ((6 * width : ℤ) / 10, 0, (width : ℤ), (height : ℤ) / 2)

/-- Membership in the filled ellipse inscribed in the box
`(x0, y0, x1, y1)` (`ImageDraw.ellipse(box, fill=...)`): the standard
ellipse inequality with center `((x0+x1)/2, (y0+y1)/2)` and radii
`((x1-x0)/2, (y1-y0)/2)`, cleared of denominators.  PIL's scanline
rasterizer can differ on boundary pixels; no claim depends on the exact
shape. -/
def inEllipse (x0 y0 x1 y1 : ℤ) (x y : Nat) : Bool :=
  decide (((2 * (x : ℤ) - (x0 + x1)) * (y1 - y0)) ^ 2 +
      ((2 * (y : ℤ) - (y0 + y1)) * (x1 - x0)) ^ 2 ≤ ((x1 - x0) * (y1 - y0)) ^ 2)

/-- The leak layer before blurring: a black canvas of the image's size
with the position's ellipse filled with `leak_color` (lines 148-165). -/
def leakLayer (image : Image) (leak_color : Pixel) (leak_position : String) : Image :=
  let bb := ellipse_box leak_position image.width image.height
  ⟨image.width, image.height, fun x y =>
    if inEllipse bb.1 bb.2.1 bb.2.2.1 bb.2.2.2 x y then leak_color else ⟨0, 0, 0⟩⟩

/-- One channel of `ImageChops.screen`:
`255 - (255 - a) * (255 - b) / 255` with C integer (floor) division. -/
def screen_channel (a b : Nat) : Nat :=
  255 - (255 - a) * (255 - b) / 255

/-- `ImageChops.screen(im1, im2)` applied channel-wise (the two images
have equal sizes wherever the code calls it; PIL raises on mismatch). -/
def ImageChops_screen (im1 im2 : Image) : Image :=
  ⟨im1.width, im1.height, fun x y =>
    ⟨screen_channel (im1.pixel x y).r (im2.pixel x y).r,
     screen_channel (im1.pixel x y).g (im2.pixel x y).g,
     screen_channel (im1.pixel x y).b (im2.pixel x y).b⟩⟩

/-- One channel of `Image.blend(im1, im2, alpha)`:
`im1 + alpha * (im2 - im1)`, truncated to an integer. -/
def blend_channel (a b : Nat) (alpha : ℚ) : Nat :=
  (⌊(a : ℚ) + alpha * ((b : ℚ) - (a : ℚ))⌋).toNat

/-- `Image.blend(im1, im2, alpha)` applied channel-wise. -/
def Image_blend (im1 im2 : Image) (alpha : ℚ) : Image :=
  ⟨im1.width, im1.height, fun x y =>
    ⟨blend_channel (im1.pixel x y).r (im2.pixel x y).r alpha,
     blend_channel (im1.pixel x y).g (im2.pixel x y).g alpha,
     blend_channel (im1.pixel x y).b (im2.pixel x y).b alpha⟩⟩

/-- The blur radius `int(width * 0.1)` used at line 168, modelled exactly
as `width / 10` with floor division. -/
def leak_blur_radius (width : Nat) : Nat := width / 10

/-- `add_light_leak_effect(image, leak_color, intensity, leak_position)`:
draw the position's ellipse in `leak_color` on a black layer, blur the
layer with the external Gaussian blur `blur` (PIL's
`ImageFilter.GaussianBlur`, taken as a parameter), screen it against the
image, and blend the screened result with the original by `intensity`. -/
def add_light_leak_effect (blur : Image → Nat → Image) (image : Image)
    (leak_color : Pixel) (intensity : ℚ) (leak_position : String) : Image :=
  let leak_layer := leakLayer image leak_color leak_position
  let blur_radius := leak_blur_radius image.width
  let blurred := blur leak_layer blur_radius
  let combined := ImageChops_screen image blurred
  Image_blend image combined intensity

/-! ## Vignette effect (`add_vignette_effect`) -/

/-- `np.clip(v, 0, 255).astype(np.uint8)` for one channel value:
clamp to `[0, 255]`, then truncate toward zero. -/
def clampTruncByte (v : ℚ) : Nat :=
  (⌊min 255 (max 0 v)⌋).toNat

/-- The per-pixel darkening factor of the vignette (line 204):
`1 - strength * (distance / max_distance)`. -/
def darken_factor (strength max_distance distance : ℚ) : ℚ :=
  1 - strength * (distance / max_distance)

/-- `max_distance = (center_x**2 + center_y**2) ** 0.5` (line 194), with
the square root `sqrtQ` taken as a parameter (the code's float `** 0.5`). -/
def vignette_max_distance (sqrtQ : ℚ → ℚ) (image : Image) : ℚ :=
  sqrtQ (((image.width : ℚ) / 2) ^ 2 + ((image.height : ℚ) / 2) ^ 2)

/-- `add_vignette_effect(image, strength)`: darken every pixel by
`1 - strength * (distance-from-center / max_distance)`, then clamp to
`[0, 255]` and truncate to 8 bits.  The input is already RGB, so the
leading `image.convert("RGB")` is the identity. -/
def add_vignette_effect (sqrtQ : ℚ → ℚ) (image : Image) (strength : ℚ) : Image :=
  let center_x : ℚ := (image.width : ℚ) / 2
  let center_y : ℚ := (image.height : ℚ) / 2
  let max_distance := vignette_max_distance sqrtQ image
  ⟨image.width, image.height, fun x y =>
    let dx := (x : ℚ) - center_x
    let dy := (y : ℚ) - center_y
    let distance := sqrtQ (dx ^ 2 + dy ^ 2)
    let f := darken_factor strength max_distance distance
    let p := image.pixel x y
    ⟨clampTruncByte ((p.r : ℚ) * f),
     clampTruncByte ((p.g : ℚ) * f),
     clampTruncByte ((p.b : ℚ) * f)⟩⟩

/-! ## Outer border (`add_outer_border`) -/

/-- `ImageOps.expand(image, border=border_size, fill=color)`: pad the
image by `border_size` pixels of `color` on every side. -/
def add_outer_border (image : Image) (border_size : Nat := 1)
    (color : Pixel := ⟨192, 192, 192⟩) : Image :=
  ⟨image.width + 2 * border_size, image.height + 2 * border_size, fun x y =>
    if border_size ≤ x ∧ x < border_size + image.width ∧
        border_size ≤ y ∧ y < border_size + image.height then
      image.pixel (x - border_size) (y - border_size)
    else color⟩


/-! ## The pipeline (`main`, after argument parsing and image load)

`main` is modelled from the point where the decoded input image and the
parsed arguments are in hand (argument parsing and file I/O are external).
Alongside the result, the model records the ordered trace of range checks
and image-processing stages that execute, so that statements about what
runs before an abort can be made. -/

/-- The leak style presets of `const_leak_style`. -/
inductive LeakStyle where
  | warm
  | cool
  | pink
  | burn
  | none
  | auto
deriving DecidableEq, Repr

/-- `--leak-intensity`: either a number or the string `"auto"`. -/
inductive IntensityArg where
  | auto
  | value (q : ℚ)

/-- The parsed arguments consumed by the pipeline. -/
structure Config where
  leak_style : LeakStyle
  leak_position : String
  leak_intensity : IntensityArg
  vinette_strength : ℚ
  border_size : ℤ

/-- The observable steps of a pipeline run: the two numeric range checks
(events recorded when the check executes, pass or fail), the two
pixel-reading estimators, and the four pixel-transform stages. -/
inductive Ev where
  | checkVinette
  | vignetteWork
  | estimateIntensityWork
  | checkIntensity
  | estimateColorWork
  | frameWork
  | leakWork
  | borderWork
deriving DecidableEq, Repr

/-- The events that transform pixels (the estimators only read them). -/
def Ev.isPixelTransform : Ev → Bool
  | .vignetteWork | .frameWork | .leakWork | .borderWork => true
  | _ => false

/-- How a pipeline run can abort: the two `exit(1)` range checks of
`main`, or an exception escaping `create_instax_frame`. -/
inductive MainError where
  | vinetteOutOfBound
  | intensityOutOfBound
  | frameError (e : FrameError)
deriving DecidableEq, Repr

/-- Lines 308-311: resolve `--leak-intensity`, running
`estimate_leak_intensity` on the (possibly vignetted) image when the
`"auto"` sentinel was given. -/
def resolve_leak_intensity (arg : IntensityArg) (image : Image) : List Ev × ℚ :=
  match arg with
  | .auto => ([Ev.estimateIntensityWork], estimate_leak_intensity image)
  | .value q => ([], q)

/-- Lines 317-324: map the leak style to a color, running
`estimate_leak_light_color` for `auto` and skipping the leak for
`none`. -/
def resolve_leak_color (style : LeakStyle) (image : Image) : List Ev × Option Pixel :=
  match style with
  | .auto => ([Ev.estimateColorWork], some (estimate_leak_light_color image 200))
  | .none => ([], Option.none)
  | .warm => ([], some ⟨255, 180, 100⟩)
  | .cool => ([], some ⟨100, 180, 255⟩)
  | .pink => ([], some ⟨255, 150, 200⟩)
  | .burn => ([], some ⟨255, 60, 60⟩)

/-- Lines 326-342 of `main`, the stages after both range checks have
passed: build the instax frame (always, with `scale=10`), add the light
leak unless the color is `None` or the position is `"none"`, add the
border when its size is positive.  An exception escaping
`create_instax_frame` aborts the run. -/
def main_compose_stage (resize : Image → Nat → Nat → Image)
    (blur : Image → Nat → Image) (image : Image) (leak_intensity : ℚ)
    (leak_color : Option Pixel) (leak_position : String) (border_size : ℤ) :
    List Ev × Except MainError Image :=
  match create_instax_frame resize image 10 with
  | .error e => ([Ev.frameWork], .error (.frameError e))
  | .ok instax_image =>
    let leaked : List Ev × Image :=
      match leak_color with
      | Option.none => ([], instax_image)
      | some c =>
        if leak_position = "none" then ([], instax_image)
        else
          ([Ev.leakWork],
            add_light_leak_effect blur instax_image c leak_intensity leak_position)
    let bordered : List Ev × Image :=
      if border_size > 0 then
        ([Ev.borderWork], add_outer_border leaked.2 border_size.toNat ⟨192, 192, 192⟩)
      else ([], leaked.2)
    (Ev.frameWork :: (leaked.1 ++ bordered.1), .ok bordered.2)

/-- The body of `main` from the vignette range check onward (lines
297-343), with the event trace of every check and stage that executes, in
program order.  `scale` is not an argument: `main` always calls
`create_instax_frame(image, scale=10)`. -/
def mainRun (sqrtQ : ℚ → ℚ) (resize : Image → Nat → Nat → Image)
    (blur : Image → Nat → Image) (image : Image) (args : Config) :
    List Ev × Except MainError Image :=
  if args.vinette_strength > 1 ∨ args.vinette_strength < 0 then
    ([Ev.checkVinette], .error .vinetteOutOfBound)
  else
    let vig : List Ev × Image :=
      if args.vinette_strength > 0 then
        ([Ev.vignetteWork], add_vignette_effect sqrtQ image args.vinette_strength)
      else ([], image)
    let intens := resolve_leak_intensity args.leak_intensity vig.2
    let evs1 := Ev.checkVinette :: (vig.1 ++ intens.1)
    if intens.2 > 1 ∨ intens.2 < 0 then
      (evs1 ++ [Ev.checkIntensity], .error .intensityOutOfBound)
    else
      let col := resolve_leak_color args.leak_style vig.2
      let tail := main_compose_stage resize blur vig.2 intens.2 col.2
        args.leak_position args.border_size
      (evs1 ++ [Ev.checkIntensity] ++ col.1 ++ tail.1, tail.2)

/-! ## Concrete instances used by witnesses and counterexamples -/

/-- A stand-in for the external Lanczos resampler: a black image of the
requested size (size-correct, like PIL's resize). -/
def resizeBlack : Image → Nat → Nat → Image :=
  fun _ w h => Image.new w h ⟨0, 0, 0⟩

/-- A stand-in for the external Gaussian blur: the identity
(size-preserving, like PIL's filter). -/
def blurId : Image → Nat → Image := fun im _ => im

/-- A stand-in square root sending everything to zero. -/
def sqrtZero : ℚ → ℚ := fun _ => 0

/-- A stand-in square root: the indicator of positivity (`0` at `0`,
`1` on positives, monotone). -/
def sqrtStep : ℚ → ℚ := fun q => if q ≤ 0 then 0 else 1

/-- A 46×62 all-black test image (exactly the target aspect ratio). -/
def blackTestImage : Image := Image.new 46 62 ⟨0, 0, 0⟩

/-- A 100×0 image: positive width, zero height. -/
def zeroHeightImage : Image := Image.new 100 0 ⟨0, 0, 0⟩

/-- The image carried by an `ok` result (a black 0×0 fallback
otherwise). -/
def okImage (e : Except FrameError Image) : Image :=
  match e with
  | .ok o => o
  | .error _ => Image.new 0 0 ⟨0, 0, 0⟩

/-! ## C1: frame output dimensions -/

/-- C1: for every input image with nonzero width and height and every
scale `s > 0`, `create_instax_frame` succeeds and the output dimensions
are exactly `(54*s, 86*s)` pixels, regardless of the input image's
dimensions (and of what the resampler returns). -/
theorem create_instax_frame_output_size (resize : Image → Nat → Nat → Image)
    (image : Image) (s : Nat) (hw : 0 < image.width) (hh : 0 < image.height)
    (hs : 0 < s) :
    ∃ out, create_instax_frame resize image s = .ok out ∧
      out.width = 54 * s ∧ out.height = 86 * s := by
  unfold create_instax_frame
  rw [if_neg (by omega)]
  exact ⟨_, rfl, rfl, rfl⟩

/-- Witness for C1 at a concrete 46×62 input and scale 10. -/
theorem create_instax_frame_output_size_witness :
    ∃ out, create_instax_frame resizeBlack blackTestImage 10 = .ok out ∧
      out.width = 54 * 10 ∧ out.height = 86 * 10 :=
  create_instax_frame_output_size resizeBlack blackTestImage 10
    (by decide) (by decide) (by decide)

/-! ## C9: behavior on zero-dimension inputs -/

/-- C9 counterexample: on a 100×0 input, `create_instax_frame` fails with
Python's unclassified `ZeroDivisionError` (raised at
`img_ratio = img_width / img_height`), not with a classified
`InvalidImage` error. -/
theorem create_instax_frame_zero_dims_cex :
    ¬ (create_instax_frame resizeBlack zeroHeightImage 10 =
        .error FrameError.invalidImage) := by
  intro h
  have hz : create_instax_frame resizeBlack zeroHeightImage 10 =
      .error FrameError.zeroDivision := rfl
  rw [hz] at h
  injection h with h2
  exact FrameError.noConfusion h2

/-- C9 (amended): `create_instax_frame` never fails with a classified
`InvalidImage` error (no such classification exists in the code).  A
zero-height input fails with the unclassified `ZeroDivisionError` raised
at the aspect-ratio computation, and a zero-width input with nonzero
height is not detected at all: the empty crop is handed to the resize
library and a normal frame is returned. -/
theorem create_instax_frame_zero_dims (resize : Image → Nat → Nat → Image)
    (image : Image) (s : Nat) :
    (image.height = 0 →
      create_instax_frame resize image s = .error FrameError.zeroDivision) ∧
    (∀ e, create_instax_frame resize image s = .error e →
      e ≠ FrameError.invalidImage) ∧
    (image.width = 0 → image.height ≠ 0 →
      ∃ out, create_instax_frame resize image s = .ok out) := by
  unfold create_instax_frame
  by_cases h : image.height = 0
  · rw [if_pos h]
    refine ⟨fun _ => rfl, ?_, fun _ hne => absurd h hne⟩
    intro e he
    injection he with he2
    subst he2
    exact fun hc => FrameError.noConfusion hc
  · rw [if_neg h]
    exact ⟨fun hc => absurd hc h, fun e he => Except.noConfusion he,
      fun _ _ => ⟨_, rfl⟩⟩

/-- Witness for C9 at the concrete 100×0 input. -/
theorem create_instax_frame_zero_dims_witness :
    create_instax_frame resizeBlack zeroHeightImage 7 =
      .error FrameError.zeroDivision :=
  (create_instax_frame_zero_dims resizeBlack zeroHeightImage 7).1 rfl

/-! ## C2: paste position of the inset -/

/-- Layout predicate from C2's words: `out` consists of `inset` pasted at
offset `(px, py)` on an otherwise white canvas. -/
def PastedAt (out inset : Image) (px py : Nat) : Prop :=
  ∀ y < out.height, ∀ x < out.width,
    out.pixel x y =
      if px ≤ x ∧ x < px + inset.width ∧ py ≤ y ∧ y < py + inset.height then
        inset.pixel (x - px) (y - py)
      else ⟨255, 255, 255⟩

instance (out inset : Image) (px py : Nat) : Decidable (PastedAt out inset px py) := by
  unfold PastedAt; infer_instance

/-- The resized inset that `create_instax_frame` pastes: the centered
crop, resampled to `(46*s, 62*s)`. -/
def instax_inset (resize : Image → Nat → Nat → Image) (image : Image)
    (s : Nat) : Image :=
  resize
    (image.crop (instax_crop_box image).1 (instax_crop_box image).2.1
      (instax_crop_box image).2.2.1 (instax_crop_box image).2.2.2)
    (46 * s) (62 * s)

/-- C2 counterexample: at scale 20 the claimed vertical offset is
`70 * 20 / 10 = 140`, but the code pastes at the fixed `y = 70`; the
claimed layout fails on the actual output (its pixel at `(80, 70)` is an
inset pixel, where the claimed layout puts white canvas). -/
theorem create_instax_frame_paste_position_cex :
    ¬ (∀ out, create_instax_frame resizeBlack blackTestImage 20 = .ok out →
        PastedAt out (instax_inset resizeBlack blackTestImage 20)
          ((54 * 20 - 46 * 20) / 2) (70 * 20 / 10)) := by
  intro hcl
  have hp := hcl (okImage (create_instax_frame resizeBlack blackTestImage 20)) rfl
  have h1 := hp 70 (by decide) 80 (by decide)
  exact absurd h1 (by decide)

/-- C2 (amended): `create_instax_frame` pastes the resized inset at
`x = (54*s - 46*s) / 2` (centered horizontally, integer floor) and at the
fixed vertical offset `y = 70` for every scale — the offset does not scale
with `s` (it equals `70 * s / 10` only at the default `s = 10`). -/
theorem create_instax_frame_paste_position (resize : Image → Nat → Nat → Image)
    (image : Image) (s : Nat) (out : Image)
    (hok : create_instax_frame resize image s = .ok out) :
    PastedAt out (instax_inset resize image s) ((54 * s - 46 * s) / 2) 70 := by
  unfold create_instax_frame at hok
  by_cases h : image.height = 0
  · rw [if_pos h] at hok
    exact Except.noConfusion hok
  · rw [if_neg h] at hok
    injection hok with hok2
    subst hok2
    exact fun y hy x hx => rfl

/-- Witness for C2 at a concrete 46×62 input and scale 10 (where the
paste offsets are `x = 40`, `y = 70`). -/
theorem create_instax_frame_paste_position_witness :
    PastedAt (okImage (create_instax_frame resizeBlack blackTestImage 10))
      (instax_inset resizeBlack blackTestImage 10) ((54 * 10 - 46 * 10) / 2) 70 :=
  create_instax_frame_paste_position resizeBlack blackTestImage 10 _ rfl

/-! ## C4: blend endpoints of the light leak -/

lemma blend_channel_zero (a b : Nat) : blend_channel a b 0 = a := by
  simp [blend_channel]

lemma blend_channel_one (a b : Nat) : blend_channel a b 1 = b := by
  have h : (a : ℚ) + 1 * ((b : ℚ) - (a : ℚ)) = (b : ℚ) := by ring
  simp [blend_channel, h]

/-- C4: for every image, color and position (and whatever the external
blur returns), `add_light_leak_effect` with intensity `0` is
pixel-for-pixel the input image, and with intensity `1` it is exactly the
screen composite of the input with the blurred leak layer. -/
theorem add_light_leak_intensity_extremes (blur : Image → Nat → Image)
    (image : Image) (leak_color : Pixel) (leak_position : String) :
    Image.EqOn (add_light_leak_effect blur image leak_color 0 leak_position) image ∧
    Image.EqOn (add_light_leak_effect blur image leak_color 1 leak_position)
      (ImageChops_screen image
        (blur (leakLayer image leak_color leak_position)
          (leak_blur_radius image.width))) := by
  constructor
  · refine ⟨rfl, rfl, fun y hy x hx => ?_⟩
    show Pixel.mk (blend_channel _ _ 0) (blend_channel _ _ 0) (blend_channel _ _ 0) = _
    rw [blend_channel_zero, blend_channel_zero, blend_channel_zero]
  · refine ⟨rfl, rfl, fun y hy x hx => ?_⟩
    show Pixel.mk (blend_channel _ _ 1) (blend_channel _ _ 1) (blend_channel _ _ 1) = _
    rw [blend_channel_one, blend_channel_one, blend_channel_one]

/-! ## C7: the screen blend never darkens -/

lemma screen_channel_ge (a b : Nat) (ha : a ≤ 255) (hb : b ≤ 255) :
    a ≤ screen_channel a b ∧ b ≤ screen_channel a b := by
  unfold screen_channel
  have h1 : (255 - a) * (255 - b) / 255 ≤ 255 - a := by
    calc (255 - a) * (255 - b) / 255 ≤ (255 - a) * 255 / 255 :=
          Nat.div_le_div_right (Nat.mul_le_mul_left _ (by omega))
    _ = 255 - a := Nat.mul_div_cancel _ (by norm_num)
  have h2 : (255 - a) * (255 - b) / 255 ≤ 255 - b := by
    calc (255 - a) * (255 - b) / 255 ≤ 255 * (255 - b) / 255 :=
          Nat.div_le_div_right (Nat.mul_le_mul_right _ (by omega))
    _ = 255 - b := Nat.mul_div_cancel_left _ (by norm_num : 0 < 255)
  omega

/-- C7: for equal-sized 8-bit images, every channel of every pixel of
`ImageChops.screen` is at least the corresponding channel of both
inputs. -/
theorem screen_blend_never_darkens (a b : Image) (ha : a.Valid) (hb : b.Valid)
    (hw : b.width = a.width) (hh : b.height = a.height) :
    ∀ y < (ImageChops_screen a b).height, ∀ x < (ImageChops_screen a b).width,
      (a.pixel x y).r ≤ ((ImageChops_screen a b).pixel x y).r ∧
      (b.pixel x y).r ≤ ((ImageChops_screen a b).pixel x y).r ∧
      (a.pixel x y).g ≤ ((ImageChops_screen a b).pixel x y).g ∧
      (b.pixel x y).g ≤ ((ImageChops_screen a b).pixel x y).g ∧
      (a.pixel x y).b ≤ ((ImageChops_screen a b).pixel x y).b ∧
      (b.pixel x y).b ≤ ((ImageChops_screen a b).pixel x y).b := by
  intro y hy x hx
  have hya : y < a.height := hy
  have hxa : x < a.width := hx
  obtain ⟨har, hag, hab⟩ := ha y hya x hxa
  obtain ⟨hbr, hbg, hbb⟩ := hb y (hh ▸ hya) x (hw ▸ hxa)
  have hr := screen_channel_ge _ _ har hbr
  have hg := screen_channel_ge _ _ hag hbg
  have hbl := screen_channel_ge _ _ hab hbb
  exact ⟨hr.1, hr.2, hg.1, hg.2, hbl.1, hbl.2⟩

/-- A concrete 1×1 image with pixel `(10, 200, 30)`. -/
def onePixA : Image := Image.new 1 1 ⟨10, 200, 30⟩

/-- A concrete 1×1 image with pixel `(250, 0, 128)`. -/
def onePixB : Image := Image.new 1 1 ⟨250, 0, 128⟩

/-- Witness for C7 on two concrete 1×1 images. -/
theorem screen_blend_never_darkens_witness :
    (onePixA.pixel 0 0).r ≤ ((ImageChops_screen onePixA onePixB).pixel 0 0).r ∧
    (onePixB.pixel 0 0).r ≤ ((ImageChops_screen onePixA onePixB).pixel 0 0).r ∧
    (onePixA.pixel 0 0).g ≤ ((ImageChops_screen onePixA onePixB).pixel 0 0).g ∧
    (onePixB.pixel 0 0).g ≤ ((ImageChops_screen onePixA onePixB).pixel 0 0).g ∧
    (onePixA.pixel 0 0).b ≤ ((ImageChops_screen onePixA onePixB).pixel 0 0).b ∧
    (onePixB.pixel 0 0).b ≤ ((ImageChops_screen onePixA onePixB).pixel 0 0).b :=
  screen_blend_never_darkens onePixA onePixB (by decide) (by decide) rfl rfl
    0 (by decide) 0 (by decide)

/-! ## C10: the effects preserve image dimensions -/

/-- C10: `add_vignette_effect` and `add_light_leak_effect` both return an
image with exactly the input image's dimensions (the final
`Image.blend(image, combined, intensity)` takes its size from `image`, so
this holds for whatever the external blur returns). -/
theorem effects_preserve_dimensions (sqrtQ : ℚ → ℚ) (blur : Image → Nat → Image)
    (image : Image) (strength intensity : ℚ) (leak_color : Pixel)
    (leak_position : String) :
    ((add_vignette_effect sqrtQ image strength).width = image.width ∧
      (add_vignette_effect sqrtQ image strength).height = image.height) ∧
    ((add_light_leak_effect blur image leak_color intensity leak_position).width
        = image.width ∧
      (add_light_leak_effect blur image leak_color intensity leak_position).height
        = image.height) :=
  ⟨⟨rfl, rfl⟩, ⟨rfl, rfl⟩⟩

/-! ## C5: vignette with strength 0 is the identity -/

lemma darken_factor_zero (m d : ℚ) : darken_factor 0 m d = 1 := by
  simp [darken_factor]

lemma clampTruncByte_natCast (c : Nat) (hc : c ≤ 255) :
    clampTruncByte (c : ℚ) = c := by
  unfold clampTruncByte
  rw [max_eq_right (by positivity), min_eq_right (by exact_mod_cast hc)]
  simp

/-- C5: `add_vignette_effect` with strength `0` is the identity transform
on every 8-bit RGB image (the darkening factor is identically 1, so
clamping and truncation return each channel unchanged). -/
theorem add_vignette_zero_strength_identity (sqrtQ : ℚ → ℚ) (image : Image)
    (himg : image.Valid) :
    Image.EqOn (add_vignette_effect sqrtQ image 0) image := by
  refine ⟨rfl, rfl, fun y hy x hx => ?_⟩
  obtain ⟨hr, hg, hb⟩ := himg y hy x hx
  show Pixel.mk (clampTruncByte _) (clampTruncByte _) (clampTruncByte _) = _
  rw [darken_factor_zero, mul_one, mul_one, mul_one,
    clampTruncByte_natCast _ hr, clampTruncByte_natCast _ hg,
    clampTruncByte_natCast _ hb]

/-- A 2×2 test image with constant pixel `(100, 50, 200)`. -/
def grayTestImage : Image := Image.new 2 2 ⟨100, 50, 200⟩

/-- Witness for C5 on a concrete 2×2 image. -/
theorem add_vignette_zero_strength_identity_witness :
    Image.EqOn (add_vignette_effect sqrtZero grayTestImage 0) grayTestImage :=
  add_vignette_zero_strength_identity sqrtZero grayTestImage (by decide)

/-! ## C6: vignette center / corner / monotonicity -/

lemma add_vignette_pixel (sqrtQ : ℚ → ℚ) (image : Image) (strength : ℚ)
    (x y : Nat) :
    (add_vignette_effect sqrtQ image strength).pixel x y =
      ⟨clampTruncByte (((image.pixel x y).r : ℚ) *
          darken_factor strength (vignette_max_distance sqrtQ image)
            (sqrtQ (((x : ℚ) - (image.width : ℚ) / 2) ^ 2 +
              ((y : ℚ) - (image.height : ℚ) / 2) ^ 2))),
       clampTruncByte (((image.pixel x y).g : ℚ) *
          darken_factor strength (vignette_max_distance sqrtQ image)
            (sqrtQ (((x : ℚ) - (image.width : ℚ) / 2) ^ 2 +
              ((y : ℚ) - (image.height : ℚ) / 2) ^ 2))),
       clampTruncByte (((image.pixel x y).b : ℚ) *
          darken_factor strength (vignette_max_distance sqrtQ image)
            (sqrtQ (((x : ℚ) - (image.width : ℚ) / 2) ^ 2 +
              ((y : ℚ) - (image.height : ℚ) / 2) ^ 2)))⟩ := rfl

lemma clampTruncByte_of_bounds (v : ℚ) (h0 : 0 ≤ v) (h255 : v ≤ 255) :
    clampTruncByte v = (⌊v⌋).toNat := by
  unfold clampTruncByte
  rw [max_eq_right h0, min_eq_right h255]

/-- C6: for every 8-bit RGB image and strength in `[0, 1]`:
a pixel lying exactly at the image center (when the dimensions are even)
is unchanged; each channel of the corner pixel `(0, 0)` equals
`floor(original * (1 - strength))` within ±1 (in the exact-arithmetic
model, exactly — the ±1 of the claim absorbs float rounding); and the
darkening factor is monotonically non-increasing in the distance from the
center. -/
theorem add_vignette_center_corner_monotone (sqrtQ : ℚ → ℚ) (image : Image)
    (strength : ℚ) (himg : image.Valid) (hw : 0 < image.width)
    (hh : 0 < image.height) (hs0 : 0 ≤ strength) (hs1 : strength ≤ 1)
    (hsqrt0 : sqrtQ 0 = 0) (hsqrtpos : ∀ q : ℚ, 0 < q → 0 < sqrtQ q) :
    (∀ x y, 2 * x = image.width → 2 * y = image.height →
      (add_vignette_effect sqrtQ image strength).pixel x y = image.pixel x y) ∧
    (((((add_vignette_effect sqrtQ image strength).pixel 0 0).r : ℤ) -
        ⌊((image.pixel 0 0).r : ℚ) * (1 - strength)⌋).natAbs ≤ 1 ∧
      ((((add_vignette_effect sqrtQ image strength).pixel 0 0).g : ℤ) -
        ⌊((image.pixel 0 0).g : ℚ) * (1 - strength)⌋).natAbs ≤ 1 ∧
      ((((add_vignette_effect sqrtQ image strength).pixel 0 0).b : ℤ) -
        ⌊((image.pixel 0 0).b : ℚ) * (1 - strength)⌋).natAbs ≤ 1) ∧
    (∀ d1 d2 : ℚ, 0 ≤ d1 → d1 ≤ d2 →
      darken_factor strength (vignette_max_distance sqrtQ image) d2 ≤
        darken_factor strength (vignette_max_distance sqrtQ image) d1) := by
  have hwq : (0 : ℚ) < (image.width : ℚ) := by exact_mod_cast hw
  have hhq : (0 : ℚ) < (image.height : ℚ) := by exact_mod_cast hh
  have hm : 0 < vignette_max_distance sqrtQ image := by
    apply hsqrtpos
    have h1 : (0 : ℚ) < ((image.width : ℚ) / 2) ^ 2 := by positivity
    have h2 : (0 : ℚ) ≤ ((image.height : ℚ) / 2) ^ 2 := sq_nonneg _
    linarith
  refine ⟨?_, ?_, ?_⟩
  · -- center pixel unchanged
    intro x y hx2 hy2
    have hxq : (x : ℚ) - (image.width : ℚ) / 2 = 0 := by
      have := congrArg (fun n : Nat => (n : ℚ)) hx2
      push_cast at this
      linarith
    have hyq : (y : ℚ) - (image.height : ℚ) / 2 = 0 := by
      have := congrArg (fun n : Nat => (n : ℚ)) hy2
      push_cast at this
      linarith
    have hfac : darken_factor strength (vignette_max_distance sqrtQ image)
        (sqrtQ (((x : ℚ) - (image.width : ℚ) / 2) ^ 2 +
          ((y : ℚ) - (image.height : ℚ) / 2) ^ 2)) = 1 := by
      rw [hxq, hyq]
      norm_num [hsqrt0, darken_factor]
    obtain ⟨hr, hg, hb⟩ := himg y (by omega) x (by omega)
    rw [add_vignette_pixel, hfac, mul_one, mul_one, mul_one,
      clampTruncByte_natCast _ hr, clampTruncByte_natCast _ hg,
      clampTruncByte_natCast _ hb]
  · -- corner pixel (0, 0)
    have key : sqrtQ ((((0 : Nat) : ℚ) - (image.width : ℚ) / 2) ^ 2 +
        (((0 : Nat) : ℚ) - (image.height : ℚ) / 2) ^ 2) =
        vignette_max_distance sqrtQ image := by
      unfold vignette_max_distance
      congr 1
      push_cast
      ring
    have hfac : darken_factor strength (vignette_max_distance sqrtQ image)
        (vignette_max_distance sqrtQ image) = 1 - strength := by
      unfold darken_factor
      rw [div_self (ne_of_gt hm), mul_one]
    obtain ⟨hr, hg, hb⟩ := himg 0 hh 0 hw
    have hchan : ∀ c : Nat, c ≤ 255 →
        ((clampTruncByte ((c : ℚ) * (1 - strength)) : ℤ) -
          ⌊(c : ℚ) * (1 - strength)⌋).natAbs ≤ 1 := by
      intro c hc
      have h0 : (0 : ℚ) ≤ (c : ℚ) * (1 - strength) :=
        mul_nonneg (Nat.cast_nonneg c) (by linarith)
      have h255 : (c : ℚ) * (1 - strength) ≤ 255 := by
        have hcq : (c : ℚ) ≤ 255 := by exact_mod_cast hc
        nlinarith
      rw [clampTruncByte_of_bounds _ h0 h255,
        Int.toNat_of_nonneg (Int.floor_nonneg.mpr h0)]
      simp
    rw [add_vignette_pixel, key, hfac]
    exact ⟨hchan _ hr, hchan _ hg, hchan _ hb⟩
  · -- darkening factor monotone non-increasing in distance
    intro d1 d2 hd1 hd12
    unfold darken_factor
    have hdd : d1 / vignette_max_distance sqrtQ image ≤
        d2 / vignette_max_distance sqrtQ image := by
      apply div_le_div_of_nonneg_right hd12 hm.le
    nlinarith

/-- Witness for C6 on a concrete 2×2 image, strength `1/2`, and a concrete
square root satisfying the premises; the center-pixel part is applied at
the exact-center pixel `(1, 1)`. -/
theorem add_vignette_center_corner_monotone_witness :
    (add_vignette_effect sqrtStep grayTestImage (1 / 2)).pixel 1 1 =
      grayTestImage.pixel 1 1 :=
  (add_vignette_center_corner_monotone sqrtStep grayTestImage (1 / 2)
      (by decide) (by decide) (by decide) (by norm_num) (by norm_num)
      (by norm_num [sqrtStep])
      (fun q hq => by
        simp only [sqrtStep]
        rw [if_neg (not_le.mpr hq)]
        norm_num)).1
    1 1 (by decide) (by decide)

/-! ## C8: leak color estimation -/

lemma Image.mem_pixelList {img : Image} {p : Pixel} (hp : p ∈ img.pixelList) :
    ∃ y < img.height, ∃ x < img.width, p = img.pixel x y := by
  simp only [Image.pixelList, List.mem_flatMap, List.mem_map,
    List.mem_range] at hp
  obtain ⟨y, hy, x, hx, rfl⟩ := hp
  exact ⟨y, hy, x, hx, rfl⟩

/-- C8: `estimate_leak_light_color` with threshold 200 returns
`(255, 255, 255)` when no pixel's channel-mean brightness strictly
exceeds 200 (in particular on an all-black image), and otherwise returns
the per-channel average over exactly the pixels whose brightness exceeds
200, truncated to integers. -/
theorem estimate_leak_light_color_spec (image : Image) :
    ((∀ y < image.height, ∀ x < image.width,
        (image.pixel x y).brightness ≤ 200) →
      estimate_leak_light_color image 200 = ⟨255, 255, 255⟩) ∧
    (∀ bright_pixels,
      bright_pixels =
        image.pixelList.filter (fun p => decide ((200 : ℚ) < p.brightness)) →
      bright_pixels ≠ [] →
      estimate_leak_light_color image 200 =
        ⟨(⌊(bright_pixels.map fun p => (p.r : ℚ)).sum /
            (bright_pixels.length : ℚ)⌋).toNat,
         (⌊(bright_pixels.map fun p => (p.g : ℚ)).sum /
            (bright_pixels.length : ℚ)⌋).toNat,
         (⌊(bright_pixels.map fun p => (p.b : ℚ)).sum /
            (bright_pixels.length : ℚ)⌋).toNat⟩) := by
  constructor
  · intro h
    have hnil :
        image.pixelList.filter (fun p => decide ((200 : ℚ) < p.brightness)) = [] := by
      rw [List.filter_eq_nil_iff]
      intro p hp
      obtain ⟨y, hy, x, hx, rfl⟩ := Image.mem_pixelList hp
      simpa using not_lt.mpr (h y hy x hx)
    simp only [estimate_leak_light_color]
    rw [hnil]
    rfl
  · intro bp hbp hne
    simp only [estimate_leak_light_color]
    rw [← hbp, if_neg (fun hc => hne (List.length_eq_zero.mp hc))]

/-- Witness for C8 on the concrete all-black image. -/
theorem estimate_leak_light_color_spec_witness :
    estimate_leak_light_color blackTestImage 200 = ⟨255, 255, 255⟩ :=
  (estimate_leak_light_color_spec blackTestImage).1
    (fun y _ x _ => by norm_num [blackTestImage, Image.new, Pixel.brightness])

/-! ## C3: ordering of range checks and pixel work -/

lemma main_compose_stage_error_snd (resize : Image → Nat → Nat → Image)
    (blur : Image → Nat → Image) (image : Image) (leak_intensity : ℚ)
    (leak_color : Option Pixel) (leak_position : String) (border_size : ℤ)
    (e : MainError)
    (h : (main_compose_stage resize blur image leak_intensity leak_color
        leak_position border_size).2 = .error e) :
    ∃ e2, e = .frameError e2 := by
  unfold main_compose_stage at h
  rcases hc : create_instax_frame resize image 10 with e3 | ok
  · rw [hc] at h
    simp only [] at h
    injection h with h4
    exact ⟨e3, h4.symm⟩
  · rw [hc] at h
    simp only [] at h
    exact Except.noConfusion h

/-- The configuration of the C3 counterexample: a valid vignette strength
(`1/2`, so the vignette stage runs) together with an out-of-range leak
intensity (`2`). -/
def cexArgs : Config :=
  ⟨LeakStyle.warm, "upper_right", IntensityArg.value 2, 1 / 2, 0⟩

/-- C3 counterexample: with vignette strength `1/2` and leak intensity
`2`, the run aborts on the intensity range check, but the vignette pixel
transform has already executed before that check — pixel work happens
before all range checks have passed. -/
theorem mainRun_checks_before_work_cex :
    ¬ (∀ evs e,
        mainRun sqrtZero resizeBlack blurId grayTestImage cexArgs =
          (evs, .error e) →
        (e = MainError.vinetteOutOfBound ∨ e = MainError.intensityOutOfBound) →
        evs.filter Ev.isPixelTransform = []) := by
  intro hcl
  have hrun : mainRun sqrtZero resizeBlack blurId grayTestImage cexArgs =
      ([Ev.checkVinette, Ev.vignetteWork, Ev.checkIntensity],
        .error MainError.intensityOutOfBound) := by
    unfold mainRun cexArgs resolve_leak_intensity
    norm_num
  have h := hcl _ _ hrun (Or.inr rfl)
  exact absurd h (by decide)

/-- C3 (amended): every numeric-range violation still aborts the run
before any output is produced, and a vignette-strength violation is
detected before any pixel transform; but a leak-intensity violation is
detected only after the vignette stage (when its strength is positive)
has already run — the only pixel transform that can precede a range-check
abort is the vignette. -/
theorem mainRun_range_check_order (sqrtQ : ℚ → ℚ)
    (resize : Image → Nat → Nat → Image) (blur : Image → Nat → Image)
    (image : Image) (args : Config) (evs : List Ev) (e : MainError)
    (h : mainRun sqrtQ resize blur image args = (evs, .error e)) :
    (e = MainError.vinetteOutOfBound → evs.filter Ev.isPixelTransform = []) ∧
    (e = MainError.intensityOutOfBound →
      evs.filter Ev.isPixelTransform = [] ∨
        evs.filter Ev.isPixelTransform = [Ev.vignetteWork]) := by
  unfold mainRun at h
  by_cases h1 : args.vinette_strength > 1 ∨ args.vinette_strength < 0
  · rw [if_pos h1] at h
    injection h with hL hE
    injection hE with hE2
    subst hL; subst hE2
    exact ⟨fun _ => by decide, fun hc => absurd hc (by decide)⟩
  · rw [if_neg h1] at h
    by_cases h2 : args.vinette_strength > 0
    · rw [if_pos h2] at h
      simp only [] at h
      rcases hi : args.leak_intensity with _ | q
      · rw [hi] at h
        simp only [resolve_leak_intensity] at h
        by_cases h3 :
            estimate_leak_intensity
                (add_vignette_effect sqrtQ image args.vinette_strength) > 1 ∨
              estimate_leak_intensity
                (add_vignette_effect sqrtQ image args.vinette_strength) < 0
        · rw [if_pos h3] at h
          injection h with hL hE
          injection hE with hE2
          subst hL; subst hE2
          exact ⟨fun hc => absurd hc (by decide), fun _ => by decide⟩
        · rw [if_neg h3] at h
          injection h with hL hE
          obtain ⟨e2, rfl⟩ := main_compose_stage_error_snd _ _ _ _ _ _ _ _ hE
          exact ⟨fun hc => MainError.noConfusion hc,
            fun hc => MainError.noConfusion hc⟩
      · rw [hi] at h
        simp only [resolve_leak_intensity] at h
        by_cases h3 : q > 1 ∨ q < 0
        · rw [if_pos h3] at h
          injection h with hL hE
          injection hE with hE2
          subst hL; subst hE2
          exact ⟨fun hc => absurd hc (by decide), fun _ => by decide⟩
        · rw [if_neg h3] at h
          injection h with hL hE
          obtain ⟨e2, rfl⟩ := main_compose_stage_error_snd _ _ _ _ _ _ _ _ hE
          exact ⟨fun hc => MainError.noConfusion hc,
            fun hc => MainError.noConfusion hc⟩
    · rw [if_neg h2] at h
      simp only [] at h
      rcases hi : args.leak_intensity with _ | q
      · rw [hi] at h
        simp only [resolve_leak_intensity] at h
        by_cases h3 : estimate_leak_intensity image > 1 ∨
            estimate_leak_intensity image < 0
        · rw [if_pos h3] at h
          injection h with hL hE
          injection hE with hE2
          subst hL; subst hE2
          exact ⟨fun hc => absurd hc (by decide), fun _ => by decide⟩
        · rw [if_neg h3] at h
          injection h with hL hE
          obtain ⟨e2, rfl⟩ := main_compose_stage_error_snd _ _ _ _ _ _ _ _ hE
          exact ⟨fun hc => MainError.noConfusion hc,
            fun hc => MainError.noConfusion hc⟩
      · rw [hi] at h
        simp only [resolve_leak_intensity] at h
        by_cases h3 : q > 1 ∨ q < 0
        · rw [if_pos h3] at h
          injection h with hL hE
          injection hE with hE2
          subst hL; subst hE2
          exact ⟨fun hc => absurd hc (by decide), fun _ => by decide⟩
        · rw [if_neg h3] at h
          injection h with hL hE
          obtain ⟨e2, rfl⟩ := main_compose_stage_error_snd _ _ _ _ _ _ _ _ hE
          exact ⟨fun hc => MainError.noConfusion hc,
            fun hc => MainError.noConfusion hc⟩

/-- Witness for C3 at the counterexample's configuration: the abort's
trace contains exactly one pixel transform, the vignette. -/
theorem mainRun_range_check_order_witness :
    [Ev.checkVinette, Ev.vignetteWork, Ev.checkIntensity].filter
        Ev.isPixelTransform = [] ∨
      [Ev.checkVinette, Ev.vignetteWork, Ev.checkIntensity].filter
        Ev.isPixelTransform = [Ev.vignetteWork] :=
  (mainRun_range_check_order sqrtZero resizeBlack blurId grayTestImage cexArgs
      [Ev.checkVinette, Ev.vignetteWork, Ev.checkIntensity]
      MainError.intensityOutOfBound
      (by unfold mainRun cexArgs resolve_leak_intensity; norm_num)).2 rfl
